import Mathlib

/-!
Verification development for the Theia IQ Smart lens calculation engine
(IQSmart.py, class `calculations`).

Modelling conventions:
* Python floats are embedded as exact rationals (`Rat`).
* Python ints are embedded as `Int`; the Python `int(...)` truncation toward
  zero is `pyInt`.
* The calibration dictionary `self.calData` is embedded as `CalData`, a record
  of optional fields; a missing dictionary key is `none`.  Reading a missing
  key (Python `KeyError`), indexing out of bounds (`IndexError`) and dividing
  by zero are all embedded as the `none` outcome of an `Option` computation,
  so every conversion function returns `Option (...)`: `some r` is a normal
  return with value `r`, `none` is a raised exception.  (A few divisions that
  act on numpy scalars in the source would produce `inf`/`nan` instead of
  raising; those are also embedded as `none`, which is noted where relevant.)
* numpy library routines used by the source (`polyval`, `polyfit`, `argsort`,
  `sort`) and the scipy secant root finder are not part of the repository;
  they are modelled from their documented behaviour, as noted on each.
-/

namespace IQS

/-- Status string: OK. -/
def OK : String := "OK"

/-- Status string: no calibration data loaded. -/
def ERR_NO_CAL : String := "no cal data"

/-- Status string: minimum focal length exceeded. -/
def ERR_FL_MIN : String := "FL min"

/-- Status string: maximum focal length exceeded. -/
def ERR_FL_MAX : String := "FL max"

/-- Status string: minimum object distance exceeded. -/
def ERR_OD_MIN : String := "OD min"

/-- Status string: maximum object distance exceeded. -/
def ERR_OD_MAX : String := "OD max"

/-- Status string: object distance not specified. -/
def ERR_OD_VALUE : String := "OD value"

/-- Status string: minimum numerical aperture exceeded. -/
def ERR_NA_MIN : String := "NA min"

/-- Status string: maximum numerical aperture exceeded. -/
def ERR_NA_MAX : String := "NA max"

/-- Status string: out of allowable range, low side. -/
def ERR_RANGE_MIN : String := "out of range-min"

/-- Status string: out of allowable range, high side. -/
def ERR_RANGE_MAX : String := "out of range-max"

/-- Status string: calculation error. -/
def ERR_CALC : String := "calculation error"

/-- Status string: value warning. -/
def WARN_VALUE : String := "value warning"

/-- Modelled from the library: `numpy.polynomial.polynomial.polyval x coef`
with coefficients ordered lowest degree first (Horner evaluation). -/
def polyval (x : Rat) (coef : List Rat) : Rat :=
  coef.foldr (fun c acc => c + x * acc) 0

/-- Python `int(...)` applied to a float: truncation toward zero. -/
def pyInt (x : Rat) : Int := if 0 ≤ x then Int.floor x else Int.ceil x

/-- Division where a zero denominator is an exceptional outcome (`none`). -/
def ratDiv (a b : Rat) : Option Rat := if b = 0 then none else some (a / b)

/-- Stable insertion of one element into a list, used by `insertionSort`. -/
def insertSorted (r : α → α → Prop) [DecidableRel r] (x : α) : List α → List α
  | [] => [x]
  | y :: ys => if r x y then x :: y :: ys else y :: insertSorted r x ys

/-- Stable insertion sort; models the (deterministic) orderings produced by
`numpy.sort` and `numpy.argsort`. -/
def insertionSort (r : α → α → Prop) [DecidableRel r] : List α → List α
  | [] => []
  | x :: xs => insertSorted r x (insertionSort r xs)

/-- Modelled from the library: `numpy.argsort` applied to the absolute values
of the entries, returning the indices `0..n-1` ordered by `|vals[i]|`. -/
def argsortAbs (vals : List Rat) : List Nat :=
  insertionSort (fun i j => |vals.getD i 0| ≤ |vals.getD j 0|) (List.range vals.length)

/-- `calculations.interpolate` (IQSmart.py lines 616-639): generic
two-nearest-control-point interpolation.  With at most one control point the
source evaluates the first polynomial at `cp1Target` (not at `xValue`).
Otherwise the two control points nearest `cp1Target` are selected by sorting
absolute differences, each polynomial is evaluated at `xValue`, and the two
results are linearly interpolated.  A missing coefficient row or a zero
control-point difference is the exceptional outcome `none`. -/
def interpolate (coefList : List (List Rat)) (cp1List : List Rat)
    (cp1Target xValue : Rat) : Option Rat :=
  if cp1List.length ≤ 1 then
    (coefList[0]?).map (fun c => polyval cp1Target c)
  else
    let valList := cp1List.map (fun v => v - cp1Target)
    let valIdx := argsortAbs valList
    do
      let i0 ← valIdx[0]?
      let i1 ← valIdx[1]?
      let lowerCoeffs ← coefList[i0]?
      let upperCoeffs ← coefList[i1]?
      let cpLower ← cp1List[i0]?
      let cpUpper ← cp1List[i1]?
      let lowerValue := polyval xValue lowerCoeffs
      let upperValue := polyval xValue upperCoeffs
      let factor ← ratDiv (cp1Target - cpLower) (cpUpper - cpLower)
      some (lowerValue + factor * (upperValue - lowerValue))

/-- One `FL`-like calibration section: forward polynomial rows (`coef`) and
inverse polynomial rows (`coefInv`). -/
structure FLSection where
  coef : List (List Rat)
  coefInv : List (List Rat)

/-- One curve set: control points `cp1` and one polynomial coefficient row per
control point. -/
structure CurveSet where
  cp1 : List Rat
  coef : List (List Rat)

/-- The calibration dictionary `self.calData`.  Every field is optional: a
`none` field is a key that is absent from the dictionary. -/
structure CalData where
  zoomSteps : Option Int
  focusSteps : Option Int
  irisSteps : Option Int
  flMin : Option Rat
  flMax : Option Rat
  odMin : Option Rat
  odMax : Option Rat
  fnum : Option Rat
  FLsec : Option FLSection
  tracking : Option CurveSet
  AP : Option CurveSet
  dist : Option CurveSet
  iris : Option CurveSet

/-- Python `self.calData == {}`: every key is absent. -/
def CalData.isEmpty (c : CalData) : Bool :=
  c.zoomSteps.isNone && c.focusSteps.isNone && c.irisSteps.isNone &&
  c.flMin.isNone && c.flMax.isNone && c.odMin.isNone && c.odMax.isNone &&
  c.fnum.isNone && c.FLsec.isNone && c.tracking.isNone && c.AP.isNone &&
  c.dist.isNone && c.iris.isNone

/-- The empty calibration context (`loadData` was never given data). -/
def emptyCal : CalData :=
  ⟨none, none, none, none, none, none, none, none, none, none, none, none, none⟩

/-- `calculations.loadData`: store the data, report `ERR_NO_CAL` when empty. -/
def loadData (calData : CalData) : String :=
  if calData.isEmpty then ERR_NO_CAL else OK

/-- `calculations.loadCOC` (lines 62-67): store the circle-of-confusion value
unconditionally and warn when it is outside [0.005, 0.100] mm.  The returned
pair is (status, stored COC value). -/
def loadCOC (COC : Rat) : String × Rat :=
  (if COC < 5/1000 ∨ COC > 100/1000 then WARN_VALUE else OK, COC)

/-- `calculations.zoomStep2FL` (lines 81-98). -/
def zoomStep2FL (ctx : CalData) (zoomStep : Int) : Option (Rat × String × Rat × Rat) :=
  match ctx.FLsec with
  | none => some (0, ERR_NO_CAL, 0, 0)
  | some sec => do
    let coef ← sec.coefInv[0]?
    let FL := polyval (zoomStep : Rat) coef
    let flMinv ← ctx.flMin
    let flMaxv ← ctx.flMax
    let err := if FL < flMinv then ERR_FL_MIN else if FL > flMaxv then ERR_FL_MAX else OK
    some (FL, err, flMinv, flMaxv)

/-- The list `focusStepList` built in `focusStep2OD` (lines 123-125): for each
tracking control point, the tracking polynomial evaluated at the zoom step,
plus the BFL offset.  `none` when the coefficient table is shorter than the
control-point list (Python `IndexError`). -/
def buildFocusStepList (cp1List : List Rat) (coefList : List (List Rat))
    (zoomStep BFL : Int) : Option (List Rat) :=
  if coefList.length < cp1List.length then none
  else some ((coefList.take cp1List.length).map
    (fun c => polyval (zoomStep : Rat) c + (BFL : Rat)))

/-- Modelled from the library: sum of the k-th powers of the entries. -/
def powSum (xs : List Rat) (k : Nat) : Rat := (xs.map (fun x => x ^ k)).sum

/-- Modelled from the library: sum of `x^k * y` over paired entries. -/
def mixSum (xs ys : List Rat) (k : Nat) : Rat :=
  (List.zipWith (fun x y => x ^ k * y) xs ys).sum

/-- 2x2 determinant. -/
def det2 (a b c d : Rat) : Rat := a * d - b * c

/-- 3x3 determinant, expanded along the first row. -/
def det3 (a b c d e f g h i : Rat) : Rat :=
  a * det2 e f h i - b * det2 d f g i + c * det2 d e g h

/-- 4x4 determinant, expanded along the first row. -/
def det4 (a0 a1 a2 a3 b0 b1 b2 b3 c0 c1 c2 c3 d0 d1 d2 d3 : Rat) : Rat :=
  a0 * det3 b1 b2 b3 c1 c2 c3 d1 d2 d3 - a1 * det3 b0 b2 b3 c0 c2 c3 d0 d2 d3
    + a2 * det3 b0 b1 b3 c0 c1 c3 d0 d1 d3 - a3 * det3 b0 b1 b2 c0 c1 c2 d0 d1 d2

/-- Modelled from the library: `numpy.polynomial.polynomial.polyfit xs ys 1`,
the least-squares line through the points, computed from the normal
equations by Cramer.  A singular system yields the zero polynomial (numpy
returns a minimum-norm least-squares solution there; only the coefficient
count matters to this development).  Always two coefficients, lowest degree
first. -/
def polyfit1 (xs ys : List Rat) : List Rat :=
  let s0 := powSum xs 0
  let s1 := powSum xs 1
  let s2 := powSum xs 2
  let t0 := mixSum xs ys 0
  let t1 := mixSum xs ys 1
  let d := det2 s0 s1 s1 s2
  [if d = 0 then 0 else det2 t0 s1 t1 s2 / d,
   if d = 0 then 0 else det2 s0 t0 s1 t1 / d]

/-- Modelled from the library: degree-2 least-squares fit via normal
equations; singular systems yield zeros.  Always three coefficients. -/
def polyfit2 (xs ys : List Rat) : List Rat :=
  let s0 := powSum xs 0
  let s1 := powSum xs 1
  let s2 := powSum xs 2
  let s3 := powSum xs 3
  let s4 := powSum xs 4
  let t0 := mixSum xs ys 0
  let t1 := mixSum xs ys 1
  let t2 := mixSum xs ys 2
  let d := det3 s0 s1 s2 s1 s2 s3 s2 s3 s4
  [if d = 0 then 0 else det3 t0 s1 s2 t1 s2 s3 t2 s3 s4 / d,
   if d = 0 then 0 else det3 s0 t0 s2 s1 t1 s3 s2 t2 s4 / d,
   if d = 0 then 0 else det3 s0 s1 t0 s1 s2 t1 s2 s3 t2 / d]

/-- Modelled from the library: degree-3 least-squares fit via normal
equations; singular systems yield zeros.  Always four coefficients. -/
def polyfit3 (xs ys : List Rat) : List Rat :=
  let s0 := powSum xs 0
  let s1 := powSum xs 1
  let s2 := powSum xs 2
  let s3 := powSum xs 3
  let s4 := powSum xs 4
  let s5 := powSum xs 5
  let s6 := powSum xs 6
  let t0 := mixSum xs ys 0
  let t1 := mixSum xs ys 1
  let t2 := mixSum xs ys 2
  let t3 := mixSum xs ys 3
  let d := det4 s0 s1 s2 s3 s1 s2 s3 s4 s2 s3 s4 s5 s3 s4 s5 s6
  [if d = 0 then 0 else det4 t0 s1 s2 s3 t1 s2 s3 s4 t2 s3 s4 s5 t3 s4 s5 s6 / d,
   if d = 0 then 0 else det4 s0 t0 s2 s3 s1 t1 s3 s4 s2 t2 s4 s5 s3 t3 s5 s6 / d,
   if d = 0 then 0 else det4 s0 s1 t0 s3 s1 s2 t1 s4 s2 s3 t2 s5 s3 s4 t3 s6 / d,
   if d = 0 then 0 else det4 s0 s1 s2 t0 s1 s2 s3 t1 s2 s3 s4 t2 s3 s4 s5 t3 / d]

/-- `calculations.focusStep2OD` (lines 111-150).  Guard constants 100
(`DONT_CALC_MAX_OVER`) and 400 (`DONT_CALC_MIN_UNDER`); the `odMin`/`odMax`
defaults 2 (`OD_MIN_DEFAULT`) and 1000000 (`INFINITY`). -/
def focusStep2OD (ctx : CalData) (focusStep zoomStep BFL : Int) :
    Option (Rat × String × Rat × Rat) :=
  match ctx.tracking with
  | none => some (0, ERR_NO_CAL, 0, 0)
  | some cs => do
    let focusStepList ← buildFocusStepList cs.cp1 cs.coef zoomStep BFL
    let odMinVal := ctx.odMin.getD 2
    let odMaxVal := ctx.odMax.getD 1000000
    let f0 ← focusStepList[0]?
    let fLast ← focusStepList.getLast?
    if (focusStep : Rat) > f0 + 100 then some (0, ERR_OD_MAX, odMinVal, odMaxVal)
    else if (focusStep : Rat) < fLast - 400 then some (0, ERR_OD_MIN, odMinVal, odMaxVal)
    else do
      let coef := polyfit3 focusStepList cs.cp1
      let od ← ratDiv 1000 (polyval (focusStep : Rat) coef)
      let err := if od < 0 then ERR_OD_MAX else if od < odMinVal then ERR_OD_MIN else OK
      some (od, err, odMinVal, odMaxVal)

/-- `calculations.irisStep2NA` (lines 160-183). -/
def irisStep2NA (ctx : CalData) (irisStep : Int) (FL : Rat) (rangeLimit : Bool) :
    Option (Rat × String × Rat × Rat) :=
  match ctx.AP with
  | none => some (0, ERR_NO_CAL, 0, 0)
  | some cs => do
    let NA ← interpolate cs.coef cs.cp1 FL (irisStep : Rat)
    let isteps ← ctx.irisSteps
    let NAMinCurve ← interpolate cs.coef cs.cp1 FL (isteps : Rat)
    let NAMaxCurve ← interpolate cs.coef cs.cp1 FL 0
    let fnumVal ← ctx.fnum
    let NAMaxCal ← ratDiv 1 (2 * fnumVal)
    let NAMaxv := min NAMaxCurve NAMaxCal
    let NAMinv := max NAMinCurve (1/100)
    if NA > NAMaxv then
      some ((if rangeLimit then NAMaxv else NA), ERR_NA_MAX, NAMinv, NAMaxv)
    else if NA < NAMinv then
      some ((if rangeLimit then NAMinv else NA), ERR_NA_MIN, NAMinv, NAMaxv)
    else some (NA, OK, NAMinv, NAMaxv)

/-- `calculations.NA2FNum` (lines 586-587): `1 / (2 * NA)`. -/
def NA2FNum (NA : Rat) : Option Rat := ratDiv 1 (2 * NA)

/-- `calculations.FNum2NA` (lines 593-594): `1 / (2 * fNum)`. -/
def FNum2NA (fNum : Rat) : Option Rat := ratDiv 1 (2 * fNum)

/-- `calculations.irisStep2FNum` (lines 192-198). -/
def irisStep2FNum (ctx : CalData) (irisStep : Int) (FL : Rat) :
    Option (Rat × String × Rat × Rat) :=
  match ctx.AP with
  | none => some (0, ERR_NO_CAL, 0, 0)
  | some _ => do
    let (NA, err, NAMinv, NAMaxv) ← irisStep2NA ctx irisStep FL true
    let fNum ← NA2FNum NA
    let fNumMin ← NA2FNum NAMinv
    let fNumMax ← NA2FNum NAMaxv
    some (fNum, err, fNumMin, fNumMax)

/-- `calculations.FL2ZoomStep` (lines 210-228). -/
def FL2ZoomStep (ctx : CalData) (FL : Rat) : Option (Int × String) :=
  match ctx.FLsec with
  | none => some (0, ERR_NO_CAL)
  | some sec => do
    let coef ← sec.coef[0]?
    let zoomStep := pyInt (polyval FL coef)
    let zoomStepMax ← ctx.zoomSteps
    if zoomStep < 0 then some (0, ERR_RANGE_MIN)
    else if zoomStep > zoomStepMax then some (zoomStepMax, ERR_RANGE_MAX)
    else some (zoomStep, OK)

/-- `calculations.OD2FocusStep` (lines 240-257).  The inversion
`invOD = 1000 / OD` has no guard in the source; a zero object distance is the
Python `ZeroDivisionError`, embedded as `none`. -/
def OD2FocusStep (ctx : CalData) (OD : Rat) (zoomStep BFL : Int) :
    Option (Int × String) :=
  match ctx.tracking with
  | none => some (0, ERR_NO_CAL)
  | some cs => do
    let invOD ← ratDiv 1000 OD
    let v ← interpolate cs.coef cs.cp1 invOD (zoomStep : Rat)
    let focusStep := pyInt v + BFL
    let focusStepMax ← ctx.focusSteps
    if focusStep < 0 then some (0, ERR_RANGE_MIN)
    else if focusStep > focusStepMax then some (focusStepMax, ERR_RANGE_MAX)
    else some (focusStep, OK)

/-- `calculations.ODFL2FocusStep` (lines 266-271). -/
def ODFL2FocusStep (ctx : CalData) (OD FL : Rat) (BFL : Int) : Option (Int × String) :=
  if ctx.isEmpty then some (0, ERR_NO_CAL)
  else do
    let (zoomStep, _) ← FL2ZoomStep ctx FL
    OD2FocusStep ctx OD zoomStep BFL

/-- Modelled from the library: the scipy `optimize.newton` secant loop (no
derivative supplied), bounded at 50 iterations, convergence tolerance
1.48e-8; `none` is the `RuntimeError` raised on a flat secant step or on
iteration exhaustion.  Only termination, never the value, matters to the
claims settled here. -/
def secantGo (f : Rat → Rat) : Nat → Rat → Rat → Rat → Rat → Option Rat
  | 0, _, _, _, _ => none
  | Nat.succ n, p0, p1, q0, q1 =>
    if q1 = q0 then
      if p1 = p0 then some ((p1 + p0) / 2) else none
    else
      let p :=
        if |q1| > |q0| then ((-q0 / q1) * p1 + p0) / (1 - q0 / q1)
        else ((-q1 / q0) * p0 + p1) / (1 - q1 / q0)
      if |p - p1| ≤ 37 / 2500000000 then some p
      else secantGo f n p1 p q1 (f p)

/-- Modelled from the library: scipy `optimize.newton func x0` without a
derivative: the secant method from `x0` and the scipy-chosen second point. -/
def newtonSecant (f : Rat → Rat) (x0 : Rat) : Option Rat :=
  let x1a := x0 * (1 + 1/10000)
  let p1 := x1a + (if 0 ≤ x1a then (1 : Rat)/10000 else -(1/10000))
  secantGo f 50 x0 p1 (f x0) (f p1)

/-- The two control-point values nearest the target focal length selected by
`NA2IrisStep` (lines 284-288): indices of the two smallest absolute
differences, re-sorted ascending, mapped back to values. -/
def closestFLPair (cp1List : List Rat) (FL : Rat) : List Rat :=
  let FLListDiff := cp1List.map (fun v => v - FL)
  let FLIdx := argsortAbs FLListDiff
  let sel := insertionSort (fun a b => a ≤ b) (FLIdx.take 2)
  sel.filterMap (fun i => (FLListDiff[i]?).map (fun d => d + FL))

/-- The root-finding loop of `NA2IrisStep` (lines 295-312): for each selected
focal length, the iris step at which the AP polynomial reaches the target
NA, with the source fallbacks (step 0 with `ERR_NA_MAX` when the target NA
exceeds the zero-step value; the maximum iris step with `ERR_NA_MIN` when
the root finder does not converge). -/
def naStepLoop (coefList : List (List Rat)) (cp1List : List Rat)
    (irisSteps : Option Int) (NA : Rat) :
    List Rat → String → Option (List Rat × String)
  | [], err => some ([], err)
  | f :: rest, err => do
    let coef ← coefList[cp1List.indexOf f]?
    let NAMaxv := polyval 0 coef
    if NA < NAMaxv then
      match newtonSecant (fun x => polyval x coef - NA) 20 with
      | some stepValue => do
        let (l, e) ← naStepLoop coefList cp1List irisSteps NA rest err
        some (stepValue :: l, e)
      | none => do
        let isteps ← irisSteps
        let (l, e) ← naStepLoop coefList cp1List irisSteps NA rest ERR_NA_MIN
        some (((isteps : Rat)) :: l, e)
    else do
      let (l, e) ← naStepLoop coefList cp1List irisSteps NA rest ERR_NA_MAX
      some ((0 : Rat) :: l, e)

/-- `calculations.NA2IrisStep` (lines 280-317).  The final interpolation
accesses the second selected control point and divides by the difference of
the two without any guard; both failure modes are `none`. -/
def NA2IrisStep (ctx : CalData) (NA FL : Rat) : Option (Int × String) :=
  match ctx.AP with
  | none => some (0, ERR_NO_CAL)
  | some cs => do
    let closestFL := closestFLPair cs.cp1 FL
    let (stepValueList, err) ← naStepLoop cs.coef cs.cp1 ctx.irisSteps NA closestFL OK
    let c0 ← closestFL[0]?
    let c1 ← closestFL[1]?
    let factor ← ratDiv (FL - c0) (c1 - c0)
    let s0 ← stepValueList[0]?
    let s1 ← stepValueList[1]?
    some (pyInt (s0 + factor * (s1 - s0)), err)

/-- `calculations.fNum2IrisStep` (lines 324-331). -/
def fNum2IrisStep (ctx : CalData) (fNum FL : Rat) : Option (Int × String) :=
  match ctx.AP with
  | none => some (0, ERR_NO_CAL)
  | some _ => do
    let NA ← FNum2NA fNum
    NA2IrisStep ctx NA FL

/-- `calculations.calcAOV` (lines 430-437). -/
def calcAOV (ctx : CalData) (sensorWd FL : Rat) : Option (Rat × String) :=
  match ctx.dist with
  | none => some (0, ERR_NO_CAL)
  | some ds => do
    let semiAOV ← interpolate ds.coef ds.cp1 FL (sensorWd / 2)
    some (2 * |semiAOV|, OK)

/-- `calculations.calcFOV` (lines 446-452).  The trigonometric step is
abstracted: `tanDeg d` stands for `tan (radians d)`. -/
def calcFOV (tanDeg : Rat → Rat) (ctx : CalData) (sensorWd FL OD : Rat) :
    Option (Rat × String) :=
  match ctx.dist with
  | none => some (0, ERR_NO_CAL)
  | some _ => do
    let (AOV, _) ← calcAOV ctx sensorWd FL
    some (2 * OD * tanDeg (AOV / 2), OK)

/-- `calculations.calcDOF` (lines 461-483), with the stored circle of
confusion passed explicitly.  `INFINITY = 1000000`. -/
def calcDOF (ctx : CalData) (COC : Rat) (irisStep : Int) (FL OD : Rat) :
    Option (Rat × String × Rat × Rat) :=
  match ctx.iris with
  | none => some (0, ERR_NO_CAL, 0, 0)
  | some is =>
    if OD ≥ 1000000 then some (1000000, OK, 1000000, 1000000)
    else do
      let shortDiameter ← interpolate is.coef is.cp1 FL (irisStep : Rat)
      let magnification ← ratDiv (FL / 1000) OD
      let cocPart ← ratDiv COC (shortDiameter * magnification)
      let odMinPre ← ratDiv OD (1 + cocPart)
      let odMaxPre ← ratDiv OD (1 - cocPart)
      let odMinV := min odMinPre 1000000
      let odMaxV0 := min odMaxPre 1000000
      let odMaxV := if odMaxV0 < 0 then (1000000 : Rat) else odMaxV0
      let DOF := if odMaxV = 1000000 then (1000000 : Rat) else odMaxV - odMinV
      some (DOF, OK, odMinV, odMaxV)

/-- `calculations.calcFullDOF` (lines 493-504), with the stored circle of
confusion passed explicitly. -/
def calcFullDOF (ctx : CalData) (COC : Rat) (irisStep : Int) (FL OD : Rat) :
    Option (Rat × String) :=
  match ctx.iris with
  | none => some (0, ERR_NO_CAL)
  | some is => do
    let shortDiameter ← interpolate is.coef is.cp1 FL (irisStep : Rat)
    let DOF ← ratDiv (2 * (OD * 1000) ^ 2 * COC) (FL * shortDiameter)
    some (DOF / 1000, OK)

/-- The loop of `AOV2MotorSteps` (lines 349-357): walk the sorted focal
lengths tracking the bracketing pair (`FLLower`, `FLUpper`) around the target
angle of view. -/
def aovBracket (ctx : CalData) (IH AOV : Rat) :
    List Rat → Option (Rat × Rat) → Option (Rat × Rat) →
    Option (Option (Rat × Rat) × Option (Rat × Rat))
  | [], FLLower, FLUpper => some (FLLower, FLUpper)
  | FL :: rest, FLLower, FLUpper => do
    let (AOVMax, _) ← calcAOV ctx IH FL
    if AOVMax > AOV then aovBracket ctx IH AOV rest (some (FL, AOVMax)) FLUpper
    else
      match FLUpper with
      | none => aovBracket ctx IH AOV rest FLLower (some (FL, AOVMax))
      | some p => aovBracket ctx IH AOV rest FLLower (some p)

/-- `calculations.AOV2MotorSteps` (lines 345-398).  The Python string-valued
object distance ("skip focus") is outside this numeric embedding; the
`OD < 0` skip is embedded.  `FLList[1]` and `FLList[-2]` on a list that is
too short are the exceptional outcome `none`, as is a zero angle-of-view
difference in the interpolation. -/
def AOV2MotorSteps (ctx : CalData) (AOV IH OD : Rat) (BFL : Int) :
    Option (Int × Int × Rat × String) :=
  match ctx.dist with
  | none => some (0, 0, 0, ERR_NO_CAL)
  | some ds => do
    let FLList := insertionSort (fun a b => a ≤ b) ds.cp1
    let (lower0, upper0) ← aovBracket ctx IH AOV FLList none none
    let (lower1, upper1) ←
      match lower0 with
      | none => do
        let FLx ← FLList[1]?
        let (AOVMax, _) ← calcAOV ctx IH FLx
        some (upper0, some (FLx, AOVMax))
      | some p => some (some p, upper0)
    let (lower2, upper2) ←
      match upper1 with
      | none => do
        let FLx ← (if FLList.length < 2 then none else FLList[FLList.length - 2]?)
        let (AOVMax, _) ← calcAOV ctx IH FLx
        some (some (FLx, AOVMax), lower1)
      | some p => some (lower1, some p)
    let FLLower ← lower2
    let FLUpper ← upper2
    let factor ← ratDiv (AOV - FLLower.2) (FLUpper.2 - FLLower.2)
    let FLValue := FLLower.1 + factor * (FLUpper.1 - FLLower.1)
    let flMinv ← ctx.flMin
    let flMaxv ← ctx.flMax
    let err := if FLValue < flMinv then ERR_RANGE_MIN
      else if FLValue > flMaxv then ERR_RANGE_MAX else OK
    let (zoomStep, _) ← FL2ZoomStep ctx FLValue
    if OD < 0 then some (0, zoomStep, FLValue, ERR_OD_VALUE)
    else do
      let (focusStep, _) ← OD2FocusStep ctx OD zoomStep BFL
      some (focusStep, zoomStep, FLValue, err)

/-- `calculations.FOV2AOV` (lines 600-605), with `atanDeg x` standing for
`degrees (arctan x)`. -/
def FOV2AOV (atanDeg : Rat → Rat) (FOV OD : Rat) : Rat :=
  if OD = 0 ∨ FOV = 0 then 0 else 2 * atanDeg ((FOV / 2) / OD)

/-- `calculations.FOV2MotorSteps` (lines 411-417). -/
def FOV2MotorSteps (atanDeg : Rat → Rat) (ctx : CalData) (FOV IH OD : Rat)
    (BFL : Int) : Option (Int × Int × Rat × String) :=
  match ctx.dist with
  | none => some (0, 0, 0, ERR_NO_CAL)
  | some _ =>
    let AOV := FOV2AOV atanDeg FOV OD
    if AOV = 0 then some (0, 0, 0, ERR_CALC)
    else AOV2MotorSteps ctx AOV IH OD BFL

/-- The mutable BFL-correction state: the stored samples
`(FL, focus-step offset, OD)` and the fitted coefficients. -/
structure BFLState where
  values : List (Rat × Rat × Rat)
  coeffs : List Rat

/-- The state set up by `calculations.__init__`: no samples, no fit. -/
def initialBFLState : BFLState := ⟨[], []⟩

/-- `calculations.fitBFLCorrection` (lines 564-575).  On an empty sample list
the source evaluates `np.transpose([])[0]`, a Python `IndexError`, hence
`none`. -/
def fitBFLCorrection (vals : List (Rat × Rat × Rat)) : Option (List Rat) :=
  if vals.length = 1 then some (vals.map (fun v => v.2.1))
  else if vals.length ≤ 3 then
    if vals.length = 0 then none
    else some (polyfit1 (vals.map (fun v => v.1)) (vals.map (fun v => v.2.1)))
  else some (polyfit2 (vals.map (fun v => v.1)) (vals.map (fun v => v.2.1)))

/-- `calculations.BFLCorrection` (lines 520-526); the unused object-distance
argument of the source is omitted. -/
def BFLCorrection (s : BFLState) (FL : Rat) : Int :=
  if s.coeffs = [] then 0 else pyInt (polyval FL s.coeffs)

/-- `calculations.addBFLCorrection` (lines 535-544): compute the design focus
step, append the sample, refit. -/
def addBFLCorrection (ctx : CalData) (s : BFLState) (focusStep : Int)
    (FL OD : Rat) : Option BFLState := do
  let (designFocusStep, _) ← ODFL2FocusStep ctx OD FL 0
  let vals := s.values ++ [(FL, ((focusStep - designFocusStep : Int) : Rat), OD)]
  let coeffs ← fitBFLCorrection vals
  some ⟨vals, coeffs⟩

/-- `calculations.removeBFLCorrectionByIndex` (lines 551-560): no-op when the
index is out of bounds, otherwise delete and refit. -/
def removeBFLCorrectionByIndex (s : BFLState) (idx : Int) : Option BFLState :=
  if idx < 0 ∨ (s.values.length : Int) ≤ idx then some s
  else do
    let vals := s.values.eraseIdx idx.toNat
    let coeffs ← fitBFLCorrection vals
    some ⟨vals, coeffs⟩

/-- The BFL states reachable from the initial state by successful
`addBFLCorrection` and `removeBFLCorrectionByIndex` calls. -/
inductive BFLReachable (ctx : CalData) : BFLState → Prop where
  | init : BFLReachable ctx initialBFLState
  | add : ∀ s focusStep FL OD s2, BFLReachable ctx s →
      addBFLCorrection ctx s focusStep FL OD = some s2 → BFLReachable ctx s2
  | remove : ∀ s idx s2, BFLReachable ctx s →
      removeBFLCorrectionByIndex s idx = some s2 → BFLReachable ctx s2

/-- Inserting an element permutes the extended list. -/
theorem insertSorted_perm (r : α → α → Prop) [DecidableRel r] (x : α) (l : List α) :
    List.Perm (insertSorted r x l) (x :: l) := by
  induction l with
  | nil => rfl
  | cons y ys ih =>
    simp only [insertSorted]
    split
    · exact List.Perm.refl _
    · exact (List.Perm.cons y ih).trans (List.Perm.swap x y ys)

/-- Insertion sort permutes its input. -/
theorem insertionSort_perm (r : α → α → Prop) [DecidableRel r] (l : List α) :
    List.Perm (insertionSort r l) l := by
  induction l with
  | nil => rfl
  | cons x xs ih =>
    exact (insertSorted_perm r x (insertionSort r xs)).trans (List.Perm.cons x ih)

/-- The argsort of a value list permutes the index range. -/
theorem argsortAbs_perm (vals : List Rat) :
    List.Perm (argsortAbs vals) (List.range vals.length) :=
  insertionSort_perm _ _

/-- The argsort has one index per entry. -/
theorem argsortAbs_length (vals : List Rat) :
    (argsortAbs vals).length = vals.length := by
  have h := (argsortAbs_perm vals).length_eq
  simpa using h

/-- The argsort repeats no index. -/
theorem argsortAbs_nodup (vals : List Rat) : (argsortAbs vals).Nodup :=
  ((argsortAbs_perm vals).nodup_iff).mpr (List.nodup_range _)

/-- Every argsort entry is a position in the value list. -/
theorem argsortAbs_mem_lt (vals : List Rat) {i : Nat} (h : i ∈ argsortAbs vals) :
    i < vals.length := by
  have := ((argsortAbs_perm vals).mem_iff).mp h
  simpa using this

/-- Evaluation of a one-coefficient polynomial. -/
theorem polyval_singleton (a x : Rat) : polyval x [a] = a := by
  simp [polyval]

/-- Evaluation of a two-coefficient polynomial is affine. -/
theorem polyval_pair (a b x : Rat) : polyval x [a, b] = a + b * x := by
  simp [polyval]; ring

/-- Evaluation of a three-coefficient polynomial is quadratic. -/
theorem polyval_triple (a b c x : Rat) :
    polyval x [a, b, c] = a + b * x + c * x ^ 2 := by
  simp [polyval]; ring

/-- Claim C1.  On the single-control-point path the source evaluates the lone
polynomial at the control-point target, not at the evaluation input: with the
identity polynomial, one control point 5, target 5 and x = 3, `interpolate`
returns 5 while the specified result, the polynomial evaluated at x, is 3. -/
theorem interpolate_single_cp_eval_at_target :
    interpolate [[0, 1]] [5] 5 3 = some 5 ∧ polyval 3 [0, 1] = 3 ∧ (5 : Rat) ≠ 3 := by
  refine ⟨by norm_num [interpolate, polyval], by norm_num [polyval], by norm_num⟩

/-- Claim C2.  With the empty calibration context every conversion function
returns the `ERR_NO_CAL` status together with zero-valued placeholders for
every numeric output, for all inputs. -/
theorem conversions_empty_context_no_cal :
    (∀ s, zoomStep2FL emptyCal s = some (0, ERR_NO_CAL, 0, 0)) ∧
    (∀ fs zs b, focusStep2OD emptyCal fs zs b = some (0, ERR_NO_CAL, 0, 0)) ∧
    (∀ i FL rl, irisStep2NA emptyCal i FL rl = some (0, ERR_NO_CAL, 0, 0)) ∧
    (∀ i FL, irisStep2FNum emptyCal i FL = some (0, ERR_NO_CAL, 0, 0)) ∧
    (∀ FL, FL2ZoomStep emptyCal FL = some (0, ERR_NO_CAL)) ∧
    (∀ OD zs b, OD2FocusStep emptyCal OD zs b = some (0, ERR_NO_CAL)) ∧
    (∀ NA FL, NA2IrisStep emptyCal NA FL = some (0, ERR_NO_CAL)) ∧
    (∀ fn FL, fNum2IrisStep emptyCal fn FL = some (0, ERR_NO_CAL)) ∧
    (∀ AOV IH OD b, AOV2MotorSteps emptyCal AOV IH OD b = some (0, 0, 0, ERR_NO_CAL)) ∧
    (∀ atanDeg FOV IH OD b,
      FOV2MotorSteps atanDeg emptyCal FOV IH OD b = some (0, 0, 0, ERR_NO_CAL)) ∧
    (∀ w FL, calcAOV emptyCal w FL = some (0, ERR_NO_CAL)) ∧
    (∀ tanDeg w FL OD, calcFOV tanDeg emptyCal w FL OD = some (0, ERR_NO_CAL)) ∧
    (∀ coc i FL OD, calcDOF emptyCal coc i FL OD = some (0, ERR_NO_CAL, 0, 0)) ∧
    (∀ coc i FL OD, calcFullDOF emptyCal coc i FL OD = some (0, ERR_NO_CAL)) := by
  exact ⟨fun _ => rfl, fun _ _ _ => rfl, fun _ _ _ => rfl, fun _ _ => rfl,
    fun _ => rfl, fun _ _ _ => rfl, fun _ _ => rfl, fun _ _ => rfl,
    fun _ _ _ _ => rfl, fun _ _ _ _ _ => rfl, fun _ _ => rfl,
    fun _ _ _ _ => rfl, fun _ _ _ _ => rfl, fun _ _ _ _ => rfl⟩

/-- Claim C6.  Removing the only stored BFL sample is not the specified
delete-and-refit: the refit of the now-empty sample list is the Python
`IndexError` raised by `np.transpose([])[0]`, so the call raises instead of
returning the empty correction. -/
theorem removeBFL_last_sample_raises :
    removeBFLCorrectionByIndex ⟨[(12, 5, 1000000)], [5]⟩ 0 = none := by
  norm_num [removeBFLCorrectionByIndex, fitBFLCorrection]

/-- A demonstration context for claim C8 holding only an `iris` curve set
with the constant aperture-diameter polynomial 2 at control point 10. -/
def cocDemoCtx : CalData :=
  ⟨none, none, none, none, none, none, none, none, none, none, none, none,
    some ⟨[10], [[2]]⟩⟩

/-- Claim C8.  `loadCOC` warns exactly when the value is outside
[0.005, 0.100] mm, always stores the value, and every subsequent
depth-of-field calculation uses the stored value; in particular loading 0.15
yields a different full depth of field than the 0.020 default. -/
theorem loadCOC_warn_and_apply :
    ∀ v : Rat,
      ((loadCOC v).1 = WARN_VALUE ↔ (v < 5/1000 ∨ v > 100/1000)) ∧
      (loadCOC v).2 = v ∧
      (∀ ctx i FL OD, calcDOF ctx (loadCOC v).2 i FL OD = calcDOF ctx v i FL OD) ∧
      (∀ ctx i FL OD,
        calcFullDOF ctx (loadCOC v).2 i FL OD = calcFullDOF ctx v i FL OD) ∧
      calcFullDOF cocDemoCtx (loadCOC (15/100)).2 0 10 5 ≠
        calcFullDOF cocDemoCtx (2/100) 0 10 5 := by
  intro v
  refine ⟨?_, rfl, fun _ _ _ _ => rfl, fun _ _ _ _ => rfl, ?_⟩
  · simp only [loadCOC]
    split
    · exact iff_of_true rfl (by assumption)
    · exact iff_of_false (by decide) (by assumption)
  · norm_num [calcFullDOF, cocDemoCtx, interpolate, polyval, ratDiv, loadCOC]

/-- The two polyfit1 coefficients, as a list shape. -/
theorem polyfit1_shape (xs ys : List Rat) : ∃ a b, polyfit1 xs ys = [a, b] :=
  ⟨_, _, rfl⟩

/-- The three polyfit2 coefficients, as a list shape. -/
theorem polyfit2_shape (xs ys : List Rat) : ∃ a b c, polyfit2 xs ys = [a, b, c] :=
  ⟨_, _, _, rfl⟩

/-- Every reachable BFL state carries the fit of its own sample list (or is
the initial empty state). -/
theorem bfl_reachable_fit (ctx : CalData) (s : BFLState) (h : BFLReachable ctx s) :
    (s.values = [] ∧ s.coeffs = []) ∨ fitBFLCorrection s.values = some s.coeffs := by
  induction h with
  | init => exact Or.inl ⟨rfl, rfl⟩
  | add s fs FL OD s2 _ hadd _ =>
    right
    simp only [addBFLCorrection, Option.bind_eq_bind, Option.bind_eq_some,
      Option.some.injEq] at hadd
    obtain ⟨⟨d, e⟩, _, c, hc, hs2⟩ := hadd
    rw [← hs2]
    exact hc
  | remove s idx s2 _ hrem ih =>
    by_cases hidx : idx < 0 ∨ (s.values.length : Int) ≤ idx
    · simp only [removeBFLCorrectionByIndex, if_pos hidx, Option.some.injEq] at hrem
      rw [← hrem]
      exact ih
    · right
      simp only [removeBFLCorrectionByIndex, if_neg hidx, Option.bind_eq_bind,
        Option.bind_eq_some, Option.some.injEq] at hrem
      obtain ⟨c, hc, hs2⟩ := hrem
      rw [← hs2]
      exact hc

/-- Claim C5.  After every sequence of add/remove mutations: with exactly one
stored sample the correction is one constant for every focal length; with two
or three samples the fitted correction polynomial is affine; with four or
more it is at most quadratic. -/
theorem bfl_degree_invariant (ctx : CalData) (s : BFLState)
    (h : BFLReachable ctx s) :
    (s.values.length = 1 → ∃ k : Int, ∀ FL : Rat, BFLCorrection s FL = k) ∧
    (2 ≤ s.values.length → s.values.length ≤ 3 →
      ∃ a b : Rat, ∀ FL : Rat, polyval FL s.coeffs = a + b * FL) ∧
    (4 ≤ s.values.length →
      ∃ a b c : Rat, ∀ FL : Rat, polyval FL s.coeffs = a + b * FL + c * FL ^ 2) := by
  have hinv := bfl_reachable_fit ctx s h
  refine ⟨fun h1 => ?_, fun h2 h3 => ?_, fun h4 => ?_⟩
  · rcases hinv with ⟨hv, _⟩ | hfit
    · rw [hv] at h1
      simp at h1
    · obtain ⟨v, hv⟩ := List.length_eq_one.mp h1
      rw [hv] at hfit
      simp only [fitBFLCorrection] at hfit
      norm_num at hfit
      refine ⟨pyInt v.2.1, fun FL => ?_⟩
      rw [BFLCorrection, ← hfit]
      simp [polyval_singleton]
  · rcases hinv with ⟨hv, _⟩ | hfit
    · rw [hv] at h2
      simp at h2
    · have hne1 : s.values.length ≠ 1 := by omega
      have hne0 : s.values.length ≠ 0 := by omega
      rw [fitBFLCorrection, if_neg hne1, if_pos h3, if_neg hne0] at hfit
      obtain ⟨a, b, hab⟩ := polyfit1_shape (s.values.map (fun v => v.1))
        (s.values.map (fun v => v.2.1))
      rw [hab, Option.some.injEq] at hfit
      refine ⟨a, b, fun FL => ?_⟩
      rw [← hfit, polyval_pair]
  · rcases hinv with ⟨hv, _⟩ | hfit
    · rw [hv] at h4
      simp at h4
    · have hne1 : s.values.length ≠ 1 := by omega
      have hgt3 : ¬ s.values.length ≤ 3 := by omega
      rw [fitBFLCorrection, if_neg hne1, if_neg hgt3] at hfit
      obtain ⟨a, b, c, habc⟩ := polyfit2_shape (s.values.map (fun v => v.1))
        (s.values.map (fun v => v.2.1))
      rw [habc, Option.some.injEq] at hfit
      refine ⟨a, b, c, fun FL => ?_⟩
      rw [← hfit, polyval_triple]

/-- The state reached by adding one BFL sample (focus step 3, focal length 2,
object distance 7) to the empty context. -/
def bflWitnessState : BFLState := ⟨[(2, 3, 7)], [3]⟩

/-- Claim C5 witness: the one-sample state reached by a single add is covered
by the degree invariant. -/
theorem bfl_degree_invariant_witness :
    BFLReachable emptyCal bflWitnessState ∧
    ((bflWitnessState.values.length = 1 →
      ∃ k : Int, ∀ FL : Rat, BFLCorrection bflWitnessState FL = k) ∧
    (2 ≤ bflWitnessState.values.length → bflWitnessState.values.length ≤ 3 →
      ∃ a b : Rat, ∀ FL : Rat, polyval FL bflWitnessState.coeffs = a + b * FL) ∧
    (4 ≤ bflWitnessState.values.length →
      ∃ a b c : Rat, ∀ FL : Rat,
        polyval FL bflWitnessState.coeffs = a + b * FL + c * FL ^ 2)) := by
  have hadd : addBFLCorrection emptyCal initialBFLState 3 2 7 = some bflWitnessState := by
    norm_num [addBFLCorrection, ODFL2FocusStep, emptyCal, CalData.isEmpty,
      initialBFLState, fitBFLCorrection, bflWitnessState]
  have hr : BFLReachable emptyCal bflWitnessState :=
    BFLReachable.add _ _ _ _ _ BFLReachable.init hadd
  exact ⟨hr, bfl_degree_invariant emptyCal bflWitnessState hr⟩

/-- A calibration context on which the zoom round trip fails: the inverse
polynomial is the constant 5 but the forward polynomial is the constant 0, and
nothing in the code ties the two together. -/
def c3ctx : CalData :=
  ⟨some 1000, none, none, some 1, some 10, none, none, none,
    some ⟨[[0]], [[5]]⟩, none, none, none, none⟩

/-- Claim C3 counterexample.  At zoom step 100 the focal length 5 is inside
[flMin, flMax] = [1, 10], yet composing `FL2ZoomStep` after `zoomStep2FL`
returns step 0, off by 100, because the forward and inverse calibration
polynomials are unrelated in the code. -/
theorem roundtrip_zoom_fl_cex :
    zoomStep2FL c3ctx 100 = some (5, OK, 1, 10) ∧
    FL2ZoomStep c3ctx 5 = some (0, OK) ∧ ((0 : Int) - 100).natAbs > 1 := by
  refine ⟨?_, ?_, by norm_num⟩
  · norm_num [zoomStep2FL, c3ctx, polyval]
  · norm_num [FL2ZoomStep, c3ctx, polyval, pyInt]

/-- Claim C3 amended.  When the calibration data itself is coherent, namely
the forward polynomial evaluated at `zoomStep2FL s` lands within one step of
`s`, and `s` is inside the calibrated focal-length range and away from the
clamp boundaries, the round trip returns a step within one of `s` (integer
truncation tolerance).  Without that coherence assumption on the data the
round trip can be off by an arbitrary amount (see the counterexample). -/
theorem roundtrip_zoom_fl_amended (ctx : CalData) (sec : FLSection)
    (ci cf : List Rat) (m M : Rat) (zmax s : Int)
    (hsec : ctx.FLsec = some sec) (hci : sec.coefInv[0]? = some ci)
    (hcf : sec.coef[0]? = some cf)
    (hm : ctx.flMin = some m) (hM : ctx.flMax = some M)
    (hz : ctx.zoomSteps = some zmax)
    (hlo : m ≤ polyval (s : Rat) ci) (hhi : polyval (s : Rat) ci ≤ M)
    (hcoh : |polyval (polyval (s : Rat) ci) cf - (s : Rat)| ≤ 1)
    (hs1 : 1 ≤ s) (hsz : s + 1 ≤ zmax) :
    zoomStep2FL ctx s = some (polyval (s : Rat) ci, OK, m, M) ∧
    ∃ z : Int, FL2ZoomStep ctx (polyval (s : Rat) ci) = some (z, OK) ∧
      (z - s).natAbs ≤ 1 := by
  obtain ⟨hc1, hc2⟩ := abs_le.mp hcoh
  have hsR : (1 : Rat) ≤ (s : Rat) := by exact_mod_cast hs1
  have ht0 : (0 : Rat) ≤ polyval (polyval (s : Rat) ci) cf := by linarith
  have hfloor1 : s - 1 ≤ Int.floor (polyval (polyval (s : Rat) ci) cf) := by
    rw [Int.le_floor]
    push_cast
    linarith
  have hfloor2 : Int.floor (polyval (polyval (s : Rat) ci) cf) ≤ s + 1 := by
    have h1 : polyval (polyval (s : Rat) ci) cf ≤ ((s + 1 : Int) : Rat) := by
      push_cast
      linarith
    have h2 := Int.floor_mono h1
    rwa [Int.floor_intCast] at h2
  constructor
  · simp only [zoomStep2FL, hsec, hci, Option.bind_eq_bind, Option.some_bind, hm, hM]
    rw [if_neg (not_lt.mpr hlo), if_neg (not_lt.mpr hhi)]
  · refine ⟨Int.floor (polyval (polyval (s : Rat) ci) cf), ?_, by omega⟩
    simp only [FL2ZoomStep, hsec, hcf, Option.bind_eq_bind, Option.some_bind, hz, pyInt,
      if_pos ht0]
    rw [if_neg (by omega : ¬ Int.floor (polyval (polyval (s : Rat) ci) cf) < 0),
      if_neg (not_lt.mpr (by omega : Int.floor (polyval (polyval (s : Rat) ci) cf) ≤ zmax))]

/-- A coherent calibration context for the amended round-trip law: both the
forward and the inverse polynomial are the identity. -/
def c3GoodCtx : CalData :=
  ⟨some 100, none, none, some 1, some 10, none, none, none,
    some ⟨[[0, 1]], [[0, 1]]⟩, none, none, none, none⟩

/-- Claim C3 witness: the amended round trip holds at zoom step 5 on the
coherent identity calibration. -/
theorem roundtrip_zoom_fl_amended_witness :
    |polyval (polyval ((5 : Int) : Rat) [0, 1]) [0, 1] - ((5 : Int) : Rat)| ≤ 1 ∧
    (zoomStep2FL c3GoodCtx 5 = some (polyval ((5 : Int) : Rat) [0, 1], OK, 1, 10) ∧
      ∃ z : Int, FL2ZoomStep c3GoodCtx (polyval ((5 : Int) : Rat) [0, 1]) = some (z, OK) ∧
        (z - 5).natAbs ≤ 1) := by
  refine ⟨by norm_num [polyval], ?_⟩
  exact roundtrip_zoom_fl_amended c3GoodCtx ⟨[[0, 1]], [[0, 1]]⟩ [0, 1] [0, 1] 1 10 100 5
    rfl rfl rfl rfl rfl rfl (by norm_num [polyval]) (by norm_num [polyval])
    (by norm_num [polyval]) (by norm_num) (by norm_num)

/-- A tracking-only calibration context for the focusStep2OD witness, with
constant tracking polynomials 40, 30, 20, 10 at inverse-object-distance
control points 1, 2, 4, 8. -/
def fsODctx : CalData :=
  ⟨none, none, none, none, none, none, none, none, none,
    some ⟨[1, 2, 4, 8], [[40], [30], [20], [10]]⟩, none, none, none⟩

/-- Claim C7.  With tracking data loaded, `focusStep2OD` returns object
distance 0 with `ERR_OD_MAX` when the queried focus step is more than 100
over the infinity-end entry of the focus-step list, 0 with `ERR_OD_MIN` when
more than 400 under the near-end entry, and otherwise inverts the cubic fit
through (focusStepList, control points) as `OD = 1000 / fit(focusStep)`,
flagging negative results `ERR_OD_MAX` and results under odMin
`ERR_OD_MIN`. -/
theorem focusStep2OD_behavior (ctx : CalData) (cs : CurveSet) (fsl : List Rat)
    (fs zs bfl : Int) (f0 fLast : Rat)
    (htr : ctx.tracking = some cs)
    (hb : buildFocusStepList cs.cp1 cs.coef zs bfl = some fsl)
    (h0 : fsl[0]? = some f0) (hL : fsl.getLast? = some fLast) :
    ((fs : Rat) > f0 + 100 →
      focusStep2OD ctx fs zs bfl =
        some (0, ERR_OD_MAX, ctx.odMin.getD 2, ctx.odMax.getD 1000000)) ∧
    (¬((fs : Rat) > f0 + 100) → (fs : Rat) < fLast - 400 →
      focusStep2OD ctx fs zs bfl =
        some (0, ERR_OD_MIN, ctx.odMin.getD 2, ctx.odMax.getD 1000000)) ∧
    (¬((fs : Rat) > f0 + 100) → ¬((fs : Rat) < fLast - 400) →
      ∀ v : Rat, polyval (fs : Rat) (polyfit3 fsl cs.cp1) = v → v ≠ 0 →
        focusStep2OD ctx fs zs bfl =
          some (1000 / v,
            if 1000 / v < 0 then ERR_OD_MAX
            else if 1000 / v < ctx.odMin.getD 2 then ERR_OD_MIN else OK,
            ctx.odMin.getD 2, ctx.odMax.getD 1000000)) := by
  refine ⟨fun hg1 => ?_, fun hg1 hg2 => ?_, fun hg1 hg2 v hv hvne => ?_⟩
  · simp only [focusStep2OD, htr, hb, Option.bind_eq_bind, Option.some_bind, h0, hL]
    rw [if_pos hg1]
  · simp only [focusStep2OD, htr, hb, Option.bind_eq_bind, Option.some_bind, h0, hL]
    rw [if_neg hg1, if_pos hg2]
  · simp only [focusStep2OD, htr, hb, Option.bind_eq_bind, Option.some_bind, h0, hL]
    rw [if_neg hg1, if_neg hg2, hv]
    simp only [ratDiv, if_neg hvne, Option.some_bind]

/-- Claim C7 witness: the guard and fit hypotheses hold on the concrete
tracking context with focus step 25 at zoom step 0. -/
theorem focusStep2OD_behavior_witness :
    fsODctx.tracking = some ⟨[1, 2, 4, 8], [[40], [30], [20], [10]]⟩ ∧
    buildFocusStepList [1, 2, 4, 8] [[40], [30], [20], [10]] 0 0 =
      some [40, 30, 20, 10] ∧
    (((25 : Int) : Rat) > 40 + 100 →
      focusStep2OD fsODctx 25 0 0 =
        some (0, ERR_OD_MAX, fsODctx.odMin.getD 2, fsODctx.odMax.getD 1000000)) ∧
    (¬(((25 : Int) : Rat) > 40 + 100) → ((25 : Int) : Rat) < 10 - 400 →
      focusStep2OD fsODctx 25 0 0 =
        some (0, ERR_OD_MIN, fsODctx.odMin.getD 2, fsODctx.odMax.getD 1000000)) ∧
    (¬(((25 : Int) : Rat) > 40 + 100) → ¬(((25 : Int) : Rat) < 10 - 400) →
      ∀ v : Rat, polyval ((25 : Int) : Rat) (polyfit3 [40, 30, 20, 10] [1, 2, 4, 8]) = v →
        v ≠ 0 →
        focusStep2OD fsODctx 25 0 0 =
          some (1000 / v,
            if 1000 / v < 0 then ERR_OD_MAX
            else if 1000 / v < fsODctx.odMin.getD 2 then ERR_OD_MIN else OK,
            fsODctx.odMin.getD 2, fsODctx.odMax.getD 1000000)) := by
  have hb : buildFocusStepList [1, 2, 4, 8] [[40], [30], [20], [10]] 0 0 =
      some ([40, 30, 20, 10] : List Rat) := by
    norm_num [buildFocusStepList, polyval]
  exact ⟨rfl, hb,
    focusStep2OD_behavior fsODctx ⟨[1, 2, 4, 8], [[40], [30], [20], [10]]⟩
      [40, 30, 20, 10] 25 0 0 40 10 rfl hb rfl rfl⟩

/-- A calibration context on which the rangeLimit clamp of `irisStep2NA`
escapes the returned interval: the AP curves are the constant 1/125 = 0.008,
but with fnum = 100 the design bound 1/(2 fnum) = 0.005 pushes NAMax below
the floored NAMin = 0.01. -/
def c4ctx : CalData :=
  ⟨none, none, some 50, none, none, none, none, some 100, none, none,
    some ⟨[10, 20], [[1/125], [1/125]]⟩, none, none⟩

/-- Claim C4 counterexample.  With rangeLimit = true the returned NA 1/200 is
clamped to NAMax yet lies outside the returned interval
[NAMin, NAMax] = [1/100, 1/200], which is inverted. -/
theorem irisStep2NA_rangeLimit_cex :
    irisStep2NA c4ctx 5 10 true = some (1/200, ERR_NA_MAX, 1/100, 1/200) ∧
    ¬((1/100 : Rat) ≤ 1/200) := by
  refine ⟨?_, by norm_num⟩
  norm_num [irisStep2NA, c4ctx, interpolate, argsortAbs, insertionSort, insertSorted,
    polyval, ratDiv, List.range_succ, List.getD, min_def, max_def]

/-- Claim C4 amended.  Whenever `irisStep2NA` returns and its returned bounds
form a genuine interval (NAMin ≤ NAMax), the rangeLimit = true value lies in
[NAMin, NAMax]; with rangeLimit = false the raw interpolated value is
returned, with `ERR_NA_MAX` / `ERR_NA_MIN` exactly when it is above NAMax or
below NAMin.  (When fnum makes NAMax fall below NAMin the clamped value can
escape the returned interval: see the counterexample.) -/
theorem irisStep2NA_range_amended (ctx : CalData) (cs : CurveSet) (i : Int)
    (FL : Rat) (rl : Bool) (NAv : Rat) (err : String) (lo hi : Rat)
    (hAP : ctx.AP = some cs)
    (h : irisStep2NA ctx i FL rl = some (NAv, err, lo, hi))
    (hlohi : lo ≤ hi) :
    (rl = true → lo ≤ NAv ∧ NAv ≤ hi) ∧
    (rl = false → ∃ raw, interpolate cs.coef cs.cp1 FL ((i : Int) : Rat) = some raw ∧
      NAv = raw ∧
      err = (if raw > hi then ERR_NA_MAX else if raw < lo then ERR_NA_MIN else OK)) := by
  simp only [irisStep2NA, hAP, Option.bind_eq_bind, Option.bind_eq_some] at h
  obtain ⟨NA, hNA, isteps, his, NAminC, hminC, NAmaxC, hmaxC, fnumv, hfv, cal, hcal, hfin⟩ := h
  cases rl with
  | false =>
    refine ⟨fun hC => by simp at hC, fun _ => ?_⟩
    simp only [Bool.false_eq_true, if_false] at hfin
    split_ifs at hfin with hgt hlt <;>
      simp only [Option.some.injEq, Prod.mk.injEq] at hfin <;>
      obtain ⟨hv, he, hl, hh⟩ := hfin <;>
      subst hv <;> subst he <;> subst hl <;> subst hh
    · exact ⟨NA, hNA, rfl, by rw [if_pos hgt]⟩
    · exact ⟨NA, hNA, rfl, by rw [if_neg hgt, if_pos hlt]⟩
    · exact ⟨NA, hNA, rfl, by rw [if_neg hgt, if_neg hlt]⟩
  | true =>
    refine ⟨fun _ => ?_, fun hC => by simp at hC⟩
    simp only [if_true] at hfin
    split_ifs at hfin with hgt hlt <;>
      simp only [Option.some.injEq, Prod.mk.injEq] at hfin <;>
      obtain ⟨hv, he, hl, hh⟩ := hfin <;>
      subst hv <;> subst hl <;> subst hh
    · exact ⟨hlohi, le_refl _⟩
    · exact ⟨le_refl _, hlohi⟩
    · exact ⟨le_of_not_lt hlt, le_of_not_lt hgt⟩

/-- A benign calibration context for the amended NA range law: constant AP
curves 1/50 with fnum = 5, giving the degenerate interval [1/50, 1/50]. -/
def c4GoodCtx : CalData :=
  ⟨none, none, some 50, none, none, none, none, some 5, none, none,
    some ⟨[10, 20], [[1/50], [1/50]]⟩, none, none⟩

/-- Claim C4 witness: on the benign context the amended range law applies at
iris step 5, focal length 10, rangeLimit = true. -/
theorem irisStep2NA_range_amended_witness :
    irisStep2NA c4GoodCtx 5 10 true = some (1/50, OK, 1/50, 1/50) ∧
    ((true = true → (1/50 : Rat) ≤ 1/50 ∧ (1/50 : Rat) ≤ 1/50) ∧
     (true = false →
       ∃ raw, interpolate [[1/50], [1/50]] [10, 20] 10 ((5 : Int) : Rat) = some raw ∧
         (1/50 : Rat) = raw ∧
         OK = (if raw > (1/50 : Rat) then ERR_NA_MAX
               else if raw < (1/50 : Rat) then ERR_NA_MIN else OK))) := by
  have h : irisStep2NA c4GoodCtx 5 10 true = some (1/50, OK, 1/50, 1/50) := by
    norm_num [irisStep2NA, c4GoodCtx, interpolate, argsortAbs, insertionSort,
      insertSorted, polyval, ratDiv, List.range_succ, List.getD, min_def, max_def]
  exact ⟨h, irisStep2NA_range_amended c4GoodCtx ⟨[10, 20], [[1/50], [1/50]]⟩ 5 10 true
    (1/50) OK (1/50) (1/50) rfl h (le_refl _)⟩

/-- A list of length at least two starts with two distinct valid indices of
the underlying value list after argsort. -/
theorem argsortAbs_two (vals : List Rat) (h2 : 2 ≤ vals.length) :
    ∃ i0 i1 rest, argsortAbs vals = i0 :: i1 :: rest ∧ i0 ≠ i1 ∧
      i0 < vals.length ∧ i1 < vals.length := by
  have hlen : 2 ≤ (argsortAbs vals).length := by
    rw [argsortAbs_length]
    exact h2
  rcases hv : argsortAbs vals with _ | ⟨i0, _ | ⟨i1, rest⟩⟩
  · rw [hv] at hlen
    simp at hlen
  · rw [hv] at hlen
    simp at hlen
  · have hnd := argsortAbs_nodup vals
    rw [hv] at hnd
    rcases List.nodup_cons.mp hnd with ⟨hni, _⟩
    refine ⟨i0, i1, rest, rfl, fun he => hni (he ▸ List.mem_cons_self i1 rest), ?_, ?_⟩
    · exact argsortAbs_mem_lt vals (hv ▸ List.mem_cons_self i0 (i1 :: rest))
    · exact argsortAbs_mem_lt vals
        (hv ▸ List.mem_cons_of_mem i0 (List.mem_cons_self i1 rest))

/-- With a nonempty, duplicate-free control-point list and a parallel
coefficient table, `interpolate` always returns a value. -/
theorem interpolate_total (coefList : List (List Rat)) (cp1List : List Rat)
    (t x : Rat) (hne : cp1List ≠ []) (hnd : cp1List.Nodup)
    (hlen : coefList.length = cp1List.length) :
    ∃ r, interpolate coefList cp1List t x = some r := by
  by_cases hle : cp1List.length ≤ 1
  · have hpos : 0 < coefList.length := by
      rw [hlen]
      exact List.length_pos.mpr hne
    rw [interpolate, if_pos hle, List.getElem?_eq_getElem hpos]
    exact ⟨_, rfl⟩
  · push_neg at hle
    have h2 : 2 ≤ (cp1List.map (fun v => v - t)).length := by
      rw [List.length_map]
      omega
    obtain ⟨i0, i1, rest, hv, hne01, h0lt, h1lt⟩ :=
      argsortAbs_two (cp1List.map (fun v => v - t)) h2
    rw [List.length_map] at h0lt h1lt
    have hc0 : i0 < coefList.length := by omega
    have hc1 : i1 < coefList.length := by omega
    have hden : cp1List[i1] - cp1List[i0] ≠ 0 := by
      refine sub_ne_zero.mpr fun he => hne01 ?_
      exact (List.Nodup.getElem_inj_iff hnd).mp he.symm
    have hs : (interpolate coefList cp1List t x).isSome := by
      rw [interpolate, if_neg (by omega)]
      simp only [hv, Option.bind_eq_bind, List.getElem?_cons_zero, List.getElem?_cons_succ,
        Option.some_bind, List.getElem?_eq_getElem hc0, List.getElem?_eq_getElem hc1,
        List.getElem?_eq_getElem h0lt, List.getElem?_eq_getElem h1lt, ratDiv,
        if_neg hden]
      rfl
    exact Option.isSome_iff_exists.mp hs

/-- A full demonstration context: identity-style FL section, two tracking
curves, and a two-point dist section. -/
def aovDemoCtx : CalData :=
  ⟨some 100, some 1000, none, some 1, some 10, none, none, none,
    some ⟨[[0, 10]], [[3]]⟩, some ⟨[1, 2], [[500], [700]]⟩, none,
    some ⟨[4, 8], [[30], [10]]⟩, none⟩

set_option maxHeartbeats 2000000 in
/-- Claim C9.  With tracking data loaded and well formed, `OD2FocusStep`
raises exactly at object distance zero (the unguarded `1000 / OD`); the same
holds for the delegating `ODFL2FocusStep`; and `AOV2MotorSteps`, which
delegates its focus-step computation to `OD2FocusStep`, raises at OD = 0 on
the demonstration context while succeeding at OD = 1000. -/
theorem od2FocusStep_div_by_zero (ctx : CalData) (cs : CurveSet) (sec : FLSection)
    (OD : Rat) (zs bfl : Int) (fmax zmax : Int)
    (htr : ctx.tracking = some cs) (hne : cs.cp1 ≠ []) (hnd : cs.cp1.Nodup)
    (hlen : cs.coef.length = cs.cp1.length) (hfs : ctx.focusSteps = some fmax)
    (hFL : ctx.FLsec = some sec) (hcf : sec.coef ≠ [])
    (hz : ctx.zoomSteps = some zmax) :
    (OD2FocusStep ctx OD zs bfl = none ↔ OD = 0) ∧
    (∀ FL : Rat, ODFL2FocusStep ctx OD FL bfl = none ↔ OD = 0) ∧
    AOV2MotorSteps aovDemoCtx 40 6 0 0 = none ∧
    AOV2MotorSteps aovDemoCtx 40 6 1000 0 = some (500, 60, 6, OK) := by
  have hiff : ∀ zsx : Int, OD2FocusStep ctx OD zsx bfl = none ↔ OD = 0 := by
    intro zsx
    constructor
    · intro hn
      by_contra hOD
      obtain ⟨v, hv⟩ := interpolate_total cs.coef cs.cp1 (1000 / OD) (zsx : Rat) hne hnd hlen
      have hs : (OD2FocusStep ctx OD zsx bfl).isSome := by
        simp only [OD2FocusStep, htr, Option.bind_eq_bind, ratDiv, if_neg hOD,
          Option.some_bind, hv, hfs]
        split_ifs <;> rfl
      rw [hn] at hs
      exact Bool.noConfusion hs
    · intro h0
      subst h0
      simp [OD2FocusStep, htr, Option.bind_eq_bind, ratDiv]
  have hnotempty : ctx.isEmpty = false := by
    simp [CalData.isEmpty, htr]
  obtain ⟨c0, hc0⟩ : ∃ c, sec.coef[0]? = some c :=
    ⟨_, List.getElem?_eq_getElem (List.length_pos.mpr hcf)⟩
  refine ⟨hiff zs, fun FL => ?_, ?_, ?_⟩
  · have hFL2 : (FL2ZoomStep ctx FL).isSome := by
      simp only [FL2ZoomStep, hFL, Option.bind_eq_bind, hc0, Option.some_bind, hz]
      split_ifs <;> rfl
    obtain ⟨⟨z, e⟩, hze⟩ := Option.isSome_iff_exists.mp hFL2
    rw [ODFL2FocusStep, if_neg (by rw [hnotempty]; exact Bool.false_ne_true)]
    simp only [Option.bind_eq_bind, hze, Option.some_bind]
    exact hiff z
  all_goals {
    have hA4 : calcAOV aovDemoCtx 6 4 = some (60, OK) := by
      norm_num [calcAOV, aovDemoCtx, interpolate, argsortAbs, insertionSort, insertSorted,
        polyval, ratDiv, List.range_succ, List.getD, Option.bind_eq_bind]
    have hA8 : calcAOV aovDemoCtx 6 8 = some (20, OK) := by
      norm_num [calcAOV, aovDemoCtx, interpolate, argsortAbs, insertionSort, insertSorted,
        polyval, ratDiv, List.range_succ, List.getD, Option.bind_eq_bind]
    have hsort : insertionSort (fun a b => a ≤ b) ([4, 8] : List Rat) = [4, 8] := by
      norm_num [insertionSort, insertSorted]
    have hbr : aovBracket aovDemoCtx 6 40 [4, 8] none none =
        some (some (4, 60), some (8, 20)) := by
      norm_num [aovBracket, hA4, hA8, Option.bind_eq_bind]
    have hflz : FL2ZoomStep aovDemoCtx 6 = some (60, OK) := by
      norm_num [FL2ZoomStep, aovDemoCtx, polyval, pyInt, Option.bind_eq_bind]
    have hodnone : OD2FocusStep aovDemoCtx 0 60 0 = none := by
      simp [OD2FocusStep, aovDemoCtx, ratDiv, Option.bind_eq_bind]
    have hod1000 : OD2FocusStep aovDemoCtx 1000 60 0 = some (500, OK) := by
      norm_num [OD2FocusStep, aovDemoCtx, interpolate, argsortAbs, insertionSort,
        insertSorted, polyval, ratDiv, pyInt, List.range_succ, List.getD,
        Option.bind_eq_bind]
    have hdist : aovDemoCtx.dist = some ⟨[4, 8], [[30], [10]]⟩ := rfl
    have hmin : aovDemoCtx.flMin = some 1 := rfl
    have hmax : aovDemoCtx.flMax = some 10 := rfl
    norm_num [AOV2MotorSteps, hdist, hmin, hmax, hsort, hbr, hflz, hodnone, hod1000,
      ratDiv, Option.bind_eq_bind]
  }

/-- Claim C9 witness: the demonstration context satisfies every hypothesis;
at OD = 0 both conversions raise, at any other OD they return. -/
theorem od2FocusStep_div_by_zero_witness :
    aovDemoCtx.tracking = some ⟨[1, 2], [[500], [700]]⟩ ∧
    ((OD2FocusStep aovDemoCtx 0 7 0 = none ↔ (0 : Rat) = 0) ∧
      (∀ FL : Rat, ODFL2FocusStep aovDemoCtx 0 FL 0 = none ↔ (0 : Rat) = 0) ∧
      AOV2MotorSteps aovDemoCtx 40 6 0 0 = none ∧
      AOV2MotorSteps aovDemoCtx 40 6 1000 0 = some (500, 60, 6, OK)) := by
  refine ⟨rfl, ?_⟩
  exact od2FocusStep_div_by_zero aovDemoCtx ⟨[1, 2], [[500], [700]]⟩ ⟨[[0, 10]], [[3]]⟩
    0 7 0 1000 100 rfl (by simp) (by norm_num) rfl rfl rfl (by simp) rfl

/-- Every selected closest control point is a member of the control-point
list. -/
theorem closestFLPair_mem (cp1List : List Rat) (FL x : Rat)
    (hx : x ∈ closestFLPair cp1List FL) : x ∈ cp1List := by
  simp only [closestFLPair, List.mem_filterMap] at hx
  obtain ⟨i, _, hmap⟩ := hx
  rw [List.getElem?_map] at hmap
  cases hg : cp1List[i]? with
  | none =>
    rw [hg] at hmap
    simp at hmap
  | some c =>
    rw [hg] at hmap
    simp only [Option.map_some', Option.some.injEq] at hmap
    have hxc : x = c := by
      rw [← hmap]
      ring
    rw [hxc]
    exact List.getElem?_mem hg

/-- At most two control points are ever selected. -/
theorem closestFLPair_length_le (cp1List : List Rat) (FL : Rat) :
    (closestFLPair cp1List FL).length ≤ min 2 cp1List.length := by
  unfold closestFLPair
  calc (((insertionSort (fun a b => a ≤ b)
        ((argsortAbs (cp1List.map (fun v => v - FL))).take 2)).filterMap
          (fun i => (((cp1List.map (fun v => v - FL))[i]?).map (fun d => d + FL))))).length
      ≤ (insertionSort (fun a b => a ≤ b)
          ((argsortAbs (cp1List.map (fun v => v - FL))).take 2)).length :=
        List.length_filterMap_le _ _
    _ = ((argsortAbs (cp1List.map (fun v => v - FL))).take 2).length :=
        (insertionSort_perm _ _).length_eq
    _ = min 2 (argsortAbs (cp1List.map (fun v => v - FL))).length := List.length_take 2 _
    _ = min 2 cp1List.length := by rw [argsortAbs_length, List.length_map]

/-- The root-finding loop of `NA2IrisStep` returns one step value per selected
control point whenever every selected point is in the control-point list, the
coefficient table is long enough, and the iris-step count is present. -/
theorem naStepLoop_total (coefList : List (List Rat)) (cp1List : List Rat)
    (isteps : Int) (NA : Rat) (hlen : cp1List.length ≤ coefList.length) :
    ∀ (fl : List Rat) (err : String), (∀ f ∈ fl, f ∈ cp1List) →
      ∃ l e, naStepLoop coefList cp1List (some isteps) NA fl err = some (l, e) ∧
        l.length = fl.length := by
  intro fl
  induction fl with
  | nil => exact fun err _ => ⟨[], err, rfl, rfl⟩
  | cons f rest ih =>
    intro err hmem
    have hf : f ∈ cp1List := hmem f (List.mem_cons_self f rest)
    have hidx : cp1List.indexOf f < coefList.length :=
      lt_of_lt_of_le (List.indexOf_lt_length.mpr hf) hlen
    obtain ⟨c, hc⟩ : ∃ c, coefList[cp1List.indexOf f]? = some c :=
      ⟨_, List.getElem?_eq_getElem hidx⟩
    have hrest : ∀ x ∈ rest, x ∈ cp1List := fun x hx => hmem x (List.mem_cons_of_mem f hx)
    by_cases hNA : NA < polyval 0 c
    · cases hN : newtonSecant (fun x => polyval x c - NA) 20 with
      | some sv =>
        obtain ⟨l, e, hl, hll⟩ := ih err hrest
        refine ⟨sv :: l, e, ?_, by simp [hll]⟩
        simp only [naStepLoop, hc, Option.bind_eq_bind, Option.some_bind, if_pos hNA, hN,
          hl]
      | none =>
        obtain ⟨l, e, hl, hll⟩ := ih ERR_NA_MIN hrest
        refine ⟨(isteps : Rat) :: l, e, ?_, by simp [hll]⟩
        simp only [naStepLoop, hc, Option.bind_eq_bind, Option.some_bind, if_pos hNA, hN,
          hl]
    · obtain ⟨l, e, hl, hll⟩ := ih ERR_NA_MAX hrest
      refine ⟨(0 : Rat) :: l, e, ?_, by simp [hll]⟩
      simp only [naStepLoop, hc, Option.bind_eq_bind, Option.some_bind, if_neg hNA, hl]

/-- Claim C10.  `NA2IrisStep` raises whenever the AP curve set has fewer than
two control points, and whenever the two selected nearest control points
carry the same focal-length value; with at least two control points, distinct
selected values, a parallel coefficient table and the iris-step count
present, it always returns. -/
theorem na2IrisStep_welldef (ctx : CalData) (cs : CurveSet) (NA FL : Rat)
    (isteps : Int) (hAP : ctx.AP = some cs) (hlen : cs.cp1.length ≤ cs.coef.length)
    (his : ctx.irisSteps = some isteps) :
    (cs.cp1.length < 2 → NA2IrisStep ctx NA FL = none) ∧
    (∀ c0 c1, closestFLPair cs.cp1 FL = [c0, c1] → c0 ≠ c1 →
      ∃ r, NA2IrisStep ctx NA FL = some r) ∧
    (∀ c0 c1, closestFLPair cs.cp1 FL = [c0, c1] → c0 = c1 →
      NA2IrisStep ctx NA FL = none) := by
  have hmem : ∀ f ∈ closestFLPair cs.cp1 FL, f ∈ cs.cp1 :=
    fun f hf => closestFLPair_mem cs.cp1 FL f hf
  refine ⟨fun hlt => ?_, fun c0 c1 hpair hne => ?_, fun c0 c1 hpair heq => ?_⟩
  · have hplen : (closestFLPair cs.cp1 FL).length ≤ 1 := by
      have := closestFLPair_length_le cs.cp1 FL
      omega
    simp only [NA2IrisStep, hAP, Option.bind_eq_bind]
    cases hloop : naStepLoop cs.coef cs.cp1 ctx.irisSteps NA (closestFLPair cs.cp1 FL) OK with
    | none => simp
    | some le =>
      obtain ⟨l, e⟩ := le
      simp only [Option.some_bind]
      cases hc0 : (closestFLPair cs.cp1 FL)[0]? with
      | none => simp
      | some c0 =>
        simp only [Option.some_bind, List.getElem?_eq_none hplen, Option.none_bind]
  · obtain ⟨l, e, hloop, hlen2⟩ := naStepLoop_total cs.coef cs.cp1 isteps NA hlen
      (closestFLPair cs.cp1 FL) OK hmem
    rw [hpair] at hloop hlen2
    obtain ⟨s0, s1, hl⟩ := List.length_eq_two.mp (by simpa using hlen2)
    subst hl
    have hden : c1 - c0 ≠ 0 := sub_ne_zero.mpr (Ne.symm hne)
    have hs : (NA2IrisStep ctx NA FL).isSome := by
      simp only [NA2IrisStep, hAP, Option.bind_eq_bind, his, hpair, hloop,
        Option.some_bind, List.getElem?_cons_zero, List.getElem?_cons_succ, ratDiv,
        if_neg hden]
      rfl
    exact Option.isSome_iff_exists.mp hs
  · obtain ⟨l, e, hloop, hlen2⟩ := naStepLoop_total cs.coef cs.cp1 isteps NA hlen
      (closestFLPair cs.cp1 FL) OK hmem
    rw [hpair] at hloop
    have hden : c1 - c0 = 0 := by
      rw [heq, sub_self]
    simp only [NA2IrisStep, hAP, Option.bind_eq_bind, his, hpair, hloop,
      Option.some_bind, List.getElem?_cons_zero, List.getElem?_cons_succ, ratDiv,
      if_pos hden, Option.none_bind]

/-- A minimal AP calibration context for the NA2IrisStep totality witness. -/
def c10ctx : CalData :=
  ⟨none, none, some 50, none, none, none, none, none, none, none,
    some ⟨[10, 20], [[1/125], [1/125]]⟩, none, none⟩

/-- Claim C10 witness: on the two-point AP context the selected pair at focal
length 15 is [10, 20] and the totality trichotomy applies. -/
theorem na2IrisStep_welldef_witness :
    closestFLPair [10, 20] 15 = [10, 20] ∧
    ((([10, 20] : List Rat).length < 2 → NA2IrisStep c10ctx (1/100) 15 = none) ∧
     (∀ c0 c1, closestFLPair [10, 20] 15 = [c0, c1] → c0 ≠ c1 →
       ∃ r, NA2IrisStep c10ctx (1/100) 15 = some r) ∧
     (∀ c0 c1, closestFLPair [10, 20] 15 = [c0, c1] → c0 = c1 →
       NA2IrisStep c10ctx (1/100) 15 = none)) := by
  refine ⟨?_, na2IrisStep_welldef c10ctx ⟨[10, 20], [[1/125], [1/125]]⟩ (1/100) 15 50
    rfl (by norm_num) rfl⟩
  norm_num [closestFLPair, argsortAbs, insertionSort, insertSorted, List.range_succ,
    List.getD, List.filterMap_cons, List.filterMap_nil]

end IQS
